import Mathlib

/-!
Verification of the go-autocomplete service (`src/go-autocomplete/main.go`).

The service's pure core is embedded shallowly:
* Go `strings.TrimSpace` / `strings.ToLower` become `goTrimSpace` / `goToLower`
  (the case mapping is modelled on the ASCII letters; Go additionally lowers
  non-ASCII letters, which none of the proved statements depend on);
* `crypto/sha1` plus `hex.EncodeToString` become `sha1` / `hexEncode` over
  byte lists (`Nat` values below 256), with 32-bit words as `Nat` reduced
  modulo `2 ^ 32`;
* the Elasticsearch client is replaced by explicit outcome values: each
  embedded operation receives the engine's response (or transport error) as
  an argument and returns, next to its `Except` result, a trace of the
  request it issued, so that "no engine call happened" is expressible.
-/

/-- Character test matching Go `unicode.IsSpace`: the Unicode white-space
code points (U+0009..U+000D, U+0020, U+0085, U+00A0, U+1680, U+2000..U+200A,
U+2028, U+2029, U+202F, U+205F, U+3000). -/
def goIsSpace (c : Char) : Bool :=
  let n := c.toNat
  n == 9 || n == 10 || n == 11 || n == 12 || n == 13 || n == 32 ||
  n == 133 || n == 160 || n == 5760 ||
  n == 8192 || n == 8193 || n == 8194 || n == 8195 || n == 8196 ||
  n == 8197 || n == 8198 || n == 8199 || n == 8200 || n == 8201 ||
  n == 8202 || n == 8232 || n == 8233 || n == 8239 || n == 8287 ||
  n == 12288

/-- Drop white-space characters from both ends of a character list. -/
def trimList (l : List Char) : List Char :=
  ((l.dropWhile goIsSpace).reverse.dropWhile goIsSpace).reverse

/-- Embeds Go `strings.TrimSpace`. -/
def goTrimSpace (s : String) : String :=
  String.mk (trimList s.data)

/-- Lower-case one character (ASCII range, see the module comment). -/
def goLowerChar (c : Char) : Char :=
  if 65 ≤ c.toNat ∧ c.toNat ≤ 90 then Char.ofNat (c.toNat + 32) else c

/-- Embeds Go `strings.ToLower`. -/
def goToLower (s : String) : String :=
  String.mk (s.data.map goLowerChar)

/-- UTF-8 encoding of one code point, as Go `[]byte(string)` produces. -/
def utf8EncodeChar (c : Char) : List Nat :=
  let n := c.toNat
  if n < 128 then [n]
  else if n < 2048 then [192 ||| (n >>> 6), 128 ||| (n &&& 63)]
  else if n < 65536 then
    [224 ||| (n >>> 12), 128 ||| ((n >>> 6) &&& 63), 128 ||| (n &&& 63)]
  else
    [240 ||| (n >>> 18), 128 ||| ((n >>> 12) &&& 63),
     128 ||| ((n >>> 6) &&& 63), 128 ||| (n &&& 63)]

/-- UTF-8 byte sequence of a string, as Go `[]byte(s)`. -/
def utf8Encode (s : String) : List Nat :=
  (s.data.map utf8EncodeChar).flatten

/-- Rotate a 32-bit word (a `Nat` below `2 ^ 32`) left by `n` bits. -/
def rotl32 (x n : Nat) : Nat :=
  ((x <<< n) % 4294967296) ||| (x >>> (32 - n))

/-- Big-endian byte decomposition: `n` bytes of the value `v`. -/
def toBytesBE : Nat → Nat → List Nat
  | 0, _ => []
  | m + 1, v => toBytesBE m (v >>> 8) ++ [v % 256]

/-- SHA-1 message padding: a `0x80` byte, zeros to 56 mod 64, then the
bit length as eight big-endian bytes. -/
def sha1Pad (msg : List Nat) : List Nat :=
  msg ++ [128] ++ List.replicate ((119 - msg.length % 64) % 64) 0 ++
    toBytesBE 8 (msg.length * 8)

/-- Split a byte list into 64-byte chunks; the first argument is fuel
bounding the number of chunks (the list's length suffices). -/
def chunks64 : Nat → List Nat → List (List Nat)
  | 0, _ => []
  | _ + 1, [] => []
  | f + 1, a :: rest => ((a :: rest).take 64) :: chunks64 f ((a :: rest).drop 64)

/-- Big-endian 32-bit words from a byte list (four bytes per word). -/
def bytesToWords : List Nat → List Nat
  | b0 :: b1 :: b2 :: b3 :: rest =>
    (((b0 <<< 24) + (b1 <<< 16) + (b2 <<< 8) + b3) % 4294967296) :: bytesToWords rest
  | _ => []

/-- SHA-1 message-schedule extension: append one derived word per step. -/
def extendWordsAux : Nat → List Nat → List Nat
  | 0, w => w
  | n + 1, w =>
    let m := w.length
    extendWordsAux n (w ++ [rotl32
      (w.getD (m - 3) 0 ^^^ w.getD (m - 8) 0 ^^^
       w.getD (m - 14) 0 ^^^ w.getD (m - 16) 0) 1])

/-- The five-word SHA-1 state. -/
structure SHA1State where
  a : Nat
  b : Nat
  c : Nat
  d : Nat
  e : Nat
  deriving Repr, DecidableEq

/-- SHA-1 initial state. -/
def sha1Start : SHA1State :=
  ⟨1732584193, 4023233417, 2562383102, 271733878, 3285377520⟩

/-- SHA-1 round function, depending on the round index. -/
def sha1F (i b c d : Nat) : Nat :=
  if i < 20 then (b &&& c) ||| ((b ^^^ 4294967295) &&& d)
  else if i < 40 then b ^^^ c ^^^ d
  else if i < 60 then (b &&& c) ||| (b &&& d) ||| (c &&& d)
  else b ^^^ c ^^^ d

/-- SHA-1 round constants. -/
def sha1K (i : Nat) : Nat :=
  if i < 20 then 1518500249
  else if i < 40 then 1859775393
  else if i < 60 then 2400959708
  else 3395469782

/-- The 80 SHA-1 rounds over the extended word schedule. -/
def sha1Rounds : Nat → List Nat → SHA1State → SHA1State
  | _, [], st => st
  | i, w :: ws, st =>
    let temp := (rotl32 st.a 5 + sha1F i st.b st.c st.d + st.e + sha1K i + w) % 4294967296
    sha1Rounds (i + 1) ws ⟨temp, st.a, rotl32 st.b 30, st.c, st.d⟩

/-- Process one 64-byte chunk and add the result into the running state. -/
def sha1Chunk (st : SHA1State) (chunk : List Nat) : SHA1State :=
  let w := extendWordsAux 64 (bytesToWords chunk)
  let r := sha1Rounds 0 w st
  ⟨(st.a + r.a) % 4294967296, (st.b + r.b) % 4294967296,
   (st.c + r.c) % 4294967296, (st.d + r.d) % 4294967296,
   (st.e + r.e) % 4294967296⟩

/-- SHA-1 digest (20 bytes) of a byte list, embedding Go `sha1.Sum`. -/
def sha1 (msg : List Nat) : List Nat :=
  let padded := sha1Pad msg
  let final := (chunks64 padded.length padded).foldl sha1Chunk sha1Start
  toBytesBE 4 final.a ++ toBytesBE 4 final.b ++ toBytesBE 4 final.c ++
    toBytesBE 4 final.d ++ toBytesBE 4 final.e

/-- Lower-case hexadecimal digit. -/
def hexDigit (n : Nat) : Char :=
  if n < 10 then Char.ofNat (48 + n) else Char.ofNat (87 + n)

/-- Embeds Go `hex.EncodeToString` over a byte list. -/
def hexEncode (bs : List Nat) : String :=
  String.mk ((bs.map (fun b => [hexDigit (b / 16 % 16), hexDigit (b % 16)])).flatten)

/-- Embeds `docID` from `main.go`: the hex-encoded SHA-1 digest of the
trimmed, lower-cased keyword. -/
def docID (keyword : String) : String :=
  hexEncode (sha1 (utf8Encode (goToLower (goTrimSpace keyword))))

/-- A JSON value, the carrier for engine response bodies and query bodies. -/
inductive Json where
  | null : Json
  | bool (b : Bool) : Json
  | num (n : Int) : Json
  | str (s : String) : Json
  | arr (elems : List Json) : Json
  | obj (fields : List (String × Json)) : Json

/-- The index name constant from `main.go`. -/
def indexName : String := "autocomplete"

def indexMapping : String :=
  "\n" ++
  "\x7b\n" ++
  "  \"settings\": \x7b\n" ++
  "    \"analysis\": \x7b\n" ++
  "      \"filter\": \x7b\n" ++
  "        \"autocomplete_filter\": \x7b\n" ++
  "          \"type\": \"edge_ngram\",\n" ++
  "          \"min_gram\": 1,\n" ++
  "          \"max_gram\": 20\n" ++
  "        \x7d\n" ++
  "      \x7d,\n" ++
  "      \"analyzer\": \x7b\n" ++
  "        \"autocomplete\": \x7b\n" ++
  "          \"type\": \"custom\",\n" ++
  "          \"tokenizer\": \"standard\",\n" ++
  "          \"filter\": [\n" ++
  "            \"lowercase\",\n" ++
  "            \"autocomplete_filter\"\n" ++
  "          ]\n" ++
  "        \x7d\n" ++
  "      \x7d\n" ++
  "    \x7d\n" ++
  "  \x7d,\n" ++
  "  \"mappings\": \x7b\n" ++
  "    \"properties\": \x7b\n" ++
  "      \"keyword\": \x7b \"type\": \"keyword\" \x7d,\n" ++
  "      \"suggest\": \x7b\n" ++
  "        \"type\": \"completion\",\n" ++
  "        \"analyzer\": \"autocomplete\",\n" ++
  "        \"preserve_separators\": true\n" ++
  "      \x7d,\n" ++
  "      \"meta\": \x7b \"type\": \"object\", \"enabled\": true \x7d\n" ++
  "    \x7d\n" ++
  "  \x7d\n" ++
  "\x7d"

/-- A metadata mapping, embedding Go `map[string]interface\x7b\x7d` as an
association list of JSON values. -/
def MetaMap : Type := List (String × Json)

/-- Embeds the `upsertRequest` struct: `meta = none` is a `nil` Go map
(absent JSON field), and an omitted `weight` decodes to `0`. -/
structure upsertRequest where
  keyword : String
  weight : Int
  meta : Option MetaMap

/-- The document shaped by `upsertKeyword` (the `doc` map in `main.go`). -/
structure StoredDoc where
  keyword : String
  suggestInput : List String
  suggestWeight : Int
  meta : MetaMap

/-- The `esapi.UpdateRequest` issued by `upsertKeyword`. -/
structure UpdateRequest where
  index : String
  documentID : String
  doc : StoredDoc
  docAsUpsert : Bool

/-- An engine HTTP response as far as the code inspects it: its status
code.  `esapi.Response.IsError()` is `StatusCode > 299`. -/
structure EsResponse where
  statusCode : Nat

/-- Embeds `upsertKeyword`: validation, defaulting and document shaping,
with the engine's outcome passed in (`.error` is a transport failure).
The second component is the update request issued, `none` when the
function returned before contacting the engine. -/
def upsertKeyword (req : upsertRequest) (engineOutcome : Except String EsResponse) :
    Except String Unit × Option UpdateRequest :=
  let keyword := goTrimSpace req.keyword
  if keyword = "" then (.error "keyword가 비어 있음", none)
  else
    let weight : Int := if req.weight = 0 then 1 else req.weight
    let meta : MetaMap := req.meta.getD []
    let doc : StoredDoc := ⟨keyword, [keyword], weight, meta⟩
    let updateReq : UpdateRequest := ⟨indexName, docID keyword, doc, true⟩
    (match engineOutcome with
     | .error e => .error ("업서트 요청 실패: " ++ e)
     | .ok res =>
       if 299 < res.statusCode then .error "업서트 응답 에러" else .ok (), some updateReq)

/-- An index-creation request as issued by `ensureIndex`. -/
structure CreateCall where
  index : String
  body : String

/-- The engine's behaviour during `ensureIndex`: the outcome of the
existence check (transport error or status code) and the outcome the
creation call would have (only consulted when creation is attempted). -/
structure EngineBehavior where
  existsResult : Except String Nat
  createResult : Except String Nat

/-- Embeds `ensureIndex`.  Returns the result together with the creation
call it issued (`none` when no creation request was made). -/
def ensureIndex (e : EngineBehavior) : Except String Unit × Option CreateCall :=
  match e.existsResult with
  | .error err => (.error ("인덱스 확인 실패: " ++ err), none)
  | .ok code =>
    if code = 200 then (.ok (), none)
    else if code ≠ 404 then (.error ("인덱스 확인 응답 코드: " ++ toString code), none)
    else
      match e.createResult with
      | .error err => (.error ("인덱스 생성 실패: " ++ err), some ⟨indexName, indexMapping⟩)
      | .ok c =>
        if 299 < c then (.error "인덱스 생성 응답 에러", some ⟨indexName, indexMapping⟩)
        else (.ok (), some ⟨indexName, indexMapping⟩)

/-- One option of the engine's suggest response (`text` field). -/
structure SuggestOption where
  text : String

/-- One entry of the per-group array (`options` field). -/
structure SuggestBucket where
  options : List SuggestOption

/-- The decoded response struct of `suggest` in `main.go`:
`Suggest map[string][]struct\x7b Options []struct\x7b Text string \x7d \x7d`. -/
structure ParsedSuggest where
  suggest : List (String × List SuggestBucket)

/-- Go JSON decoding of one option struct: `null` and a missing or `null`
`text` field leave zero values; a non-string `text` is a type error. -/
def decodeOption : Json → Except String SuggestOption
  | .null => .ok ⟨""⟩
  | .obj fields =>
    match fields.lookup "text" with
    | none => .ok ⟨""⟩
    | some .null => .ok ⟨""⟩
    | some (.str s) => .ok ⟨s⟩
    | some _ => .error "cannot unmarshal value into field text of type string"
  | _ => .error "cannot unmarshal value into option struct"

/-- Go JSON decoding of the `options` slice. -/
def decodeOptions : Json → Except String (List SuggestOption)
  | .null => .ok []
  | .arr xs => xs.mapM decodeOption
  | _ => .error "cannot unmarshal value into options slice"

/-- Go JSON decoding of one bucket struct. -/
def decodeBucket : Json → Except String SuggestBucket
  | .null => .ok ⟨[]⟩
  | .obj fields =>
    match fields.lookup "options" with
    | none => .ok ⟨[]⟩
    | some v => (decodeOptions v).map SuggestBucket.mk
  | _ => .error "cannot unmarshal value into bucket struct"

/-- Go JSON decoding of the per-group bucket slice. -/
def decodeBuckets : Json → Except String (List SuggestBucket)
  | .null => .ok []
  | .arr xs => xs.mapM decodeBucket
  | _ => .error "cannot unmarshal value into bucket slice"

/-- Go JSON decoding of the `suggest` map. -/
def decodeSuggestMap : Json → Except String (List (String × List SuggestBucket))
  | .null => .ok []
  | .obj fields => fields.mapM (fun kv => (decodeBuckets kv.2).map (fun bs => (kv.1, bs)))
  | _ => .error "cannot unmarshal value into suggest map"

/-- Go JSON decoding of the whole response into the anonymous struct of
`suggest`: missing fields are tolerated (zero values), type mismatches
fail, exactly as `encoding/json` behaves. -/
def decodeSuggestResponse : Json → Except String ParsedSuggest
  | .null => .ok ⟨[]⟩
  | .obj fields =>
    match fields.lookup "suggest" with
    | none => .ok ⟨[]⟩
    | some v => (decodeSuggestMap v).map ParsedSuggest.mk
  | _ => .error "cannot unmarshal value into response struct"

/-- The completion query body built by `suggest`. -/
def suggestQuery (q : String) : Json :=
  .obj [("suggest", .obj [("ac", .obj
    [("prefix", .str q),
     ("completion", .obj
       [("field", .str "suggest"),
        ("skip_duplicates", .bool true),
        ("size", .num 10)])])])]

/-- A search response: status code plus body; `body = .error _` stands
for a body that is not valid JSON. -/
structure SearchResp where
  statusCode : Nat
  body : Except String Json

/-- The flattening loop of `suggest`: all options of the `ac` group, in
order (`parsed.Suggest["ac"]` is the empty slice when the key or the map
is absent). -/
def collectSuggestions (p : ParsedSuggest) : List String :=
  ((p.suggest.lookup "ac").getD []).flatMap (fun b => b.options.map (fun o => o.text))

/-- Embeds `suggest`: query construction, transport error, engine error
status, body decoding and option flattening, with the engine's outcome
passed in.  The second component is the query body of the search call it
issued. -/
def suggest (q : String) (outcome : Except String SearchResp) :
    Except String (List String) × Json :=
  (result, suggestQuery q)
where
  result : Except String (List String) :=
  match outcome with
  | .error e => .error ("검색 요청 실패: " ++ e)
  | .ok res =>
    if 299 < res.statusCode then .error "검색 응답 에러"
    else
      match res.body with
      | .error e => .error ("응답 파싱 실패: " ++ e)
      | .ok j =>
        match decodeSuggestResponse j with
        | .error e => .error ("응답 파싱 실패: " ++ e)
        | .ok parsed => .ok (collectSuggestions parsed)

/-- Result of the `/suggest` handler: HTTP status, response body, and the
search query issued (`none` when no search call was made). -/
structure SuggestHandlerResult where
  status : Nat
  body : Option (List String)
  searchCall : Option Json

/-- Embeds the `/suggest` handler: trim `q`, reject empty with 400 before
any engine call, otherwise run `suggest` and map its outcome to 500/200. -/
def handleSuggest (qRaw : String) (outcome : Except String SearchResp) :
    SuggestHandlerResult :=
  let q := goTrimSpace qRaw
  if q = "" then ⟨400, none, none⟩
  else
    match suggest q outcome with
    | (.error _, query) => ⟨500, none, some query⟩
    | (.ok xs, query) => ⟨200, some xs, some query⟩

/-- Result of the `/keywords` handler: HTTP status, whether body decoding
was attempted, and the update request issued (`none` when no engine call
was made). -/
structure KeywordsHandlerResult where
  status : Nat
  decodeAttempted : Bool
  updateCall : Option UpdateRequest

/-- Embeds the `/keywords` handler: non-POST is rejected with 405 before
decoding, a body decoding failure gives 400, an `upsertKeyword` error
gives 500, success gives 201. -/
def handleKeywords (method : String) (decodeOutcome : Except String upsertRequest)
    (engineOutcome : Except String EsResponse) : KeywordsHandlerResult :=
  if method ≠ "POST" then ⟨405, false, none⟩
  else
    match decodeOutcome with
    | .error _ => ⟨400, true, none⟩
    | .ok req =>
      match upsertKeyword req engineOutcome with
      | (.error _, call) => ⟨500, true, call⟩
      | (.ok _, call) => ⟨201, true, call⟩

/-- Boolean success test for `Except`. -/
def isOkE {ε α : Type} : Except ε α → Bool
  | .ok _ => true
  | .error _ => false

theorem dropWhile_dropWhile_self {α : Type} (p : α → Bool) (l : List α) :
    (l.dropWhile p).dropWhile p = l.dropWhile p := by
  induction l with
  | nil => rfl
  | cons a l ih =>
    cases hpa : p a <;> simp [List.dropWhile_cons, hpa, ih]

theorem exists_append_dropWhile {α : Type} (p : α → Bool) (l : List α) :
    ∃ t, t ++ l.dropWhile p = l := by
  induction l with
  | nil => exact ⟨[], rfl⟩
  | cons a l ih =>
    cases hpa : p a
    · exact ⟨[], by simp [List.dropWhile_cons, hpa]⟩
    · obtain ⟨t, ht⟩ := ih
      exact ⟨a :: t, by simp [List.dropWhile_cons, hpa, ht]⟩

theorem dropWhile_length_le {α : Type} (p : α → Bool) (l : List α) :
    (l.dropWhile p).length ≤ l.length := by
  induction l with
  | nil => simp
  | cons a l ih =>
    cases hpa : p a
    · simp [List.dropWhile_cons, hpa]
    · simp [List.dropWhile_cons, hpa]
      omega

theorem dropWhile_eq_self_of_append {α : Type} (p : α → Bool) (x y : List α)
    (h : List.dropWhile p (x ++ y) = x ++ y) : x.dropWhile p = x := by
  cases x with
  | nil => rfl
  | cons a x =>
    cases hpa : p a
    · simp [List.dropWhile_cons, hpa]
    · exfalso
      rw [List.cons_append, List.dropWhile_cons, hpa] at h
      have hle := dropWhile_length_le p (x ++ y)
      rw [if_pos rfl] at h
      have := congrArg List.length h
      simp [List.length_append] at this hle
      omega

theorem trimList_idem (l : List Char) : trimList (trimList l) = trimList l := by
  unfold trimList
  obtain ⟨t, ht⟩ := exists_append_dropWhile goIsSpace (l.dropWhile goIsSpace).reverse
  have hBA : ((l.dropWhile goIsSpace).reverse.dropWhile goIsSpace).reverse ++ t.reverse
      = l.dropWhile goIsSpace := by
    have := congrArg List.reverse ht
    simpa [List.reverse_append] using this
  have h2 : (((l.dropWhile goIsSpace).reverse.dropWhile goIsSpace).reverse).dropWhile goIsSpace
      = ((l.dropWhile goIsSpace).reverse.dropWhile goIsSpace).reverse := by
    refine dropWhile_eq_self_of_append goIsSpace _ t.reverse ?_
    rw [hBA]
    exact dropWhile_dropWhile_self goIsSpace l
  rw [h2, List.reverse_reverse, dropWhile_dropWhile_self]

theorem goTrimSpace_idem (s : String) : goTrimSpace (goTrimSpace s) = goTrimSpace s := by
  unfold goTrimSpace
  exact congrArg String.mk (trimList_idem s.data)

/-- C1: for every pair of input strings that differ only in letter case or
in leading/trailing whitespace — that is, whose trimmed, lower-cased forms
coincide — `docID` returns the identical identifier string, being a pure
function of the normalized keyword. -/
theorem docID_case_whitespace_insensitive (s t : String)
    (h : goToLower (goTrimSpace s) = goToLower (goTrimSpace t)) :
    docID s = docID t := by
  unfold docID
  rw [h]

/-- Witness: a concrete pair differing in case and surrounding whitespace. -/
theorem docID_case_whitespace_insensitive_witness :
    goToLower (goTrimSpace "  IPhone 15 ") = goToLower (goTrimSpace "iphone 15") ∧
    docID "  IPhone 15 " = docID "iphone 15" :=
  ⟨by decide, docID_case_whitespace_insensitive "  IPhone 15 " "iphone 15" (by decide)⟩

theorem upsertKeyword_snd_some (req : upsertRequest) (eo : Except String EsResponse)
    (u : UpdateRequest) (h : (upsertKeyword req eo).snd = some u) :
    goTrimSpace req.keyword ≠ "" ∧
    u = ⟨indexName, docID (goTrimSpace req.keyword),
         ⟨goTrimSpace req.keyword, [goTrimSpace req.keyword],
          if req.weight = 0 then 1 else req.weight, req.meta.getD []⟩, true⟩ := by
  by_cases hk : goTrimSpace req.keyword = ""
  · simp [upsertKeyword, hk] at h
  · refine ⟨hk, ?_⟩
    simp [upsertKeyword, hk] at h
    exact h.symm

/-- C5: a submission whose keyword is empty after trimming is rejected
with the validation error before any engine call (`none` update trace). -/
theorem upsertKeyword_empty_keyword_validation (req : upsertRequest)
    (eo : Except String EsResponse) (h : goTrimSpace req.keyword = "") :
    upsertKeyword req eo = (.error "keyword가 비어 있음", none) := by
  simp [upsertKeyword, h]

/-- Witness: a whitespace-only keyword is rejected without an engine call. -/
theorem upsertKeyword_empty_keyword_validation_witness :
    upsertKeyword ⟨"   ", 3, none⟩ (.ok ⟨200⟩) = (.error "keyword가 비어 있음", none) :=
  upsertKeyword_empty_keyword_validation ⟨"   ", 3, none⟩ (.ok ⟨200⟩) (by decide)

/-- C2 counterexample: the submission `keyword = "tv", weight = -1` is
accepted, and the weight placed in the stored document is `-1`, which is
not positive — refuting the claim that no non-positive value reaches
storage. -/
theorem upsertKeyword_negative_weight_counterexample :
    isOkE (upsertKeyword ⟨"tv", -1, none⟩ (.ok ⟨200⟩)).fst = true ∧
    ((upsertKeyword ⟨"tv", -1, none⟩ (.ok ⟨200⟩)).snd.map
      (fun u => u.doc.suggestWeight)) = some (-1) ∧
    ¬ (0 : Int) < -1 :=
  ⟨rfl, rfl, by decide⟩

/-- C2 (amended): for every accepted submission whose submitted weight is
non-negative, the weight placed in the stored document is positive — zero
is rewritten to 1 at ingestion; a negative submitted weight, however,
reaches storage unchanged. -/
theorem upsertKeyword_weight_positive_of_nonneg (req : upsertRequest)
    (eo : Except String EsResponse) (u : UpdateRequest)
    (hw : 0 ≤ req.weight) (h : (upsertKeyword req eo).snd = some u) :
    0 < u.doc.suggestWeight := by
  rcases upsertKeyword_snd_some req eo u h with ⟨-, rfl⟩
  by_cases hz : req.weight = 0
  · simp [hz]
  · simp [hz]
    omega

/-- Witness: weight submitted as 0 is stored as the positive value 1. -/
theorem upsertKeyword_weight_positive_of_nonneg_witness :
    (0 : Int) < (UpdateRequest.mk indexName (docID "tv")
      (StoredDoc.mk "tv" ["tv"] 1 []) true).doc.suggestWeight :=
  upsertKeyword_weight_positive_of_nonneg ⟨"tv", 0, none⟩ (.ok ⟨200⟩)
    (UpdateRequest.mk indexName (docID "tv") (StoredDoc.mk "tv" ["tv"] 1 []) true)
    (by decide) rfl

/-- C6: for every accepted submission, weight 0 (the decoding of an
omitted weight) is stored as 1, a positive weight is stored unchanged,
and absent `meta` is stored as the empty (non-null) mapping. -/
theorem upsertKeyword_defaults (req : upsertRequest) (eo : Except String EsResponse)
    (u : UpdateRequest) (h : (upsertKeyword req eo).snd = some u) :
    (req.weight = 0 → u.doc.suggestWeight = 1) ∧
    (0 < req.weight → u.doc.suggestWeight = req.weight) ∧
    (req.meta = none → u.doc.meta = []) := by
  rcases upsertKeyword_snd_some req eo u h with ⟨-, rfl⟩
  refine ⟨fun hz => by simp [hz], fun hp => ?_, fun hm => by simp [hm]⟩
  have hz : req.weight ≠ 0 := by omega
  simp [hz]

/-- Witness: a submission with weight 0 and no meta stores weight 1 and an
empty meta mapping. -/
theorem upsertKeyword_defaults_witness :
    (UpdateRequest.mk indexName (docID "phone")
      (StoredDoc.mk "phone" ["phone"] 1 []) true).doc.suggestWeight = 1 ∧
    (UpdateRequest.mk indexName (docID "phone")
      (StoredDoc.mk "phone" ["phone"] 1 []) true).doc.meta = [] :=
  ⟨(upsertKeyword_defaults ⟨"phone", 0, none⟩ (.ok ⟨200⟩)
      (UpdateRequest.mk indexName (docID "phone")
        (StoredDoc.mk "phone" ["phone"] 1 []) true) rfl).1 rfl,
   (upsertKeyword_defaults ⟨"phone", 0, none⟩ (.ok ⟨200⟩)
      (UpdateRequest.mk indexName (docID "phone")
        (StoredDoc.mk "phone" ["phone"] 1 []) true) rfl).2.2 rfl⟩

/-- C9: every accepted submission stores the trimmed, case-preserving
keyword in the document's `keyword` field and as the sole `suggest.input`
entry, while two submissions with the same lower-cased trimmed keyword
target the same document identifier. -/
theorem upsertKeyword_case_preserving_same_doc
    (r1 r2 : upsertRequest) (eo1 eo2 : Except String EsResponse)
    (u1 u2 : UpdateRequest)
    (hcase : goToLower (goTrimSpace r1.keyword) = goToLower (goTrimSpace r2.keyword))
    (h1 : (upsertKeyword r1 eo1).snd = some u1)
    (h2 : (upsertKeyword r2 eo2).snd = some u2) :
    u1.doc.keyword = goTrimSpace r1.keyword ∧
    u1.doc.suggestInput = [goTrimSpace r1.keyword] ∧
    u2.doc.keyword = goTrimSpace r2.keyword ∧
    u2.doc.suggestInput = [goTrimSpace r2.keyword] ∧
    u1.documentID = u2.documentID := by
  rcases upsertKeyword_snd_some r1 eo1 u1 h1 with ⟨-, rfl⟩
  rcases upsertKeyword_snd_some r2 eo2 u2 h2 with ⟨-, rfl⟩
  refine ⟨rfl, rfl, rfl, rfl, ?_⟩
  show docID (goTrimSpace r1.keyword) = docID (goTrimSpace r2.keyword)
  unfold docID
  rw [goTrimSpace_idem, goTrimSpace_idem, hcase]

/-- Witness: submissions of `"IPhone"` and `" iphone "` target the same
document identifier while each stores its own casing. -/
theorem upsertKeyword_case_preserving_same_doc_witness :
    docID "IPhone" = docID " iphone " :=
  (upsertKeyword_case_preserving_same_doc ⟨"IPhone", 0, none⟩ ⟨" iphone ", 2, none⟩
    (.ok ⟨200⟩) (.ok ⟨200⟩)
    (UpdateRequest.mk indexName (docID "IPhone")
      (StoredDoc.mk "IPhone" ["IPhone"] 1 []) true)
    (UpdateRequest.mk indexName (docID " iphone ")
      (StoredDoc.mk "iphone" ["iphone"] 2 []) true)
    (by decide) rfl rfl).2.2.2.2

/-- C3 counterexample: with the index absent (existence check 404), a
creation response signalling "already exists due to a race" is an
error-class response (status 400), and `ensureIndex` returns an error for
it instead of treating it as success. -/
theorem ensureIndex_race_error_counterexample :
    isOkE (ensureIndex ⟨.ok 404, .ok 400⟩).fst = false ∧
    (ensureIndex ⟨.ok 404, .ok 400⟩).snd = some ⟨indexName, indexMapping⟩ :=
  ⟨rfl, rfl⟩

/-- C3 (amended): `ensureIndex` follows the protocol — a found index
(status 200) returns success with no creation request; a not-found index
(status 404) issues a creation request carrying the fixed schema and
succeeds exactly when the creation response is non-error (an "already
exists due to race" error response is treated as an error); any other
outcome of either call returns an error. -/
theorem ensureIndex_protocol (e : EngineBehavior) :
    (e.existsResult = .ok 200 → ensureIndex e = (.ok (), none)) ∧
    (∀ code, e.existsResult = .ok code → code ≠ 200 → code ≠ 404 →
      ensureIndex e = (.error ("인덱스 확인 응답 코드: " ++ toString code), none)) ∧
    (∀ msg, e.existsResult = .error msg →
      ensureIndex e = (.error ("인덱스 확인 실패: " ++ msg), none)) ∧
    (e.existsResult = .ok 404 →
      (ensureIndex e).snd = some ⟨indexName, indexMapping⟩ ∧
      (∀ c, e.createResult = .ok c → ¬ 299 < c → (ensureIndex e).fst = .ok ()) ∧
      (∀ c, e.createResult = .ok c → 299 < c →
        (ensureIndex e).fst = .error "인덱스 생성 응답 에러") ∧
      (∀ msg, e.createResult = .error msg →
        (ensureIndex e).fst = .error ("인덱스 생성 실패: " ++ msg))) := by
  refine ⟨fun h => by simp [ensureIndex, h],
    fun code h h200 h404 => by simp [ensureIndex, h, h200, h404],
    fun msg h => by simp [ensureIndex, h],
    fun h => ⟨?_, ?_, ?_, ?_⟩⟩
  · cases hc : e.createResult with
    | error msg => simp [ensureIndex, h, hc]
    | ok c =>
      simp only [ensureIndex, h]
      simp [hc]
      split <;> simp
  · intro c hc hlt
    simp [ensureIndex, h, hc, hlt]
  · intro c hc hlt
    simp [ensureIndex, h, hc, hlt]
  · intro msg hc
    simp [ensureIndex, h, hc]

/-- Witness: a found index is a no-op success, so a second bootstrap run
never errors. -/
theorem ensureIndex_protocol_witness :
    ensureIndex ⟨.ok 200, .ok 200⟩ = (.ok (), none) :=
  (ensureIndex_protocol ⟨.ok 200, .ok 200⟩).1 rfl

theorem flatMap_texts_eq_nil (bs : List SuggestBucket)
    (h : ∀ b ∈ bs, b.options = []) :
    bs.flatMap (fun b => b.options.map (fun o => o.text)) = [] := by
  induction bs with
  | nil => rfl
  | cons b bs ih =>
    simp only [List.flatMap_cons]
    rw [h b (List.mem_cons_self b bs), ih (fun x hx => h x (List.mem_cons_of_mem b hx))]
    rfl

/-- C4: for every successful engine response whose body decodes into the
expected structure, `suggest` flattens all options of the `ac` group, in
the engine's order, into their `text` fields; when the `ac` group has no
options the result is the empty list and no error. -/
theorem suggest_flattens_ac_options (q : String) (status : Nat) (j : Json)
    (p : ParsedSuggest) (hs : ¬ 299 < status)
    (hdec : decodeSuggestResponse j = .ok p) :
    (suggest q (.ok ⟨status, .ok j⟩)).fst = .ok (collectSuggestions p) ∧
    ((∀ b ∈ (p.suggest.lookup "ac").getD [], b.options = []) →
      (suggest q (.ok ⟨status, .ok j⟩)).fst = .ok []) := by
  have hmain : (suggest q (.ok ⟨status, .ok j⟩)).fst = .ok (collectSuggestions p) := by
    simp [suggest, suggest.result, hs, hdec]
  refine ⟨hmain, fun hall => ?_⟩
  rw [hmain, collectSuggestions, flatMap_texts_eq_nil _ hall]

/-- Witness: a response with one `ac` option flattens to its text, and a
response whose `ac` group has an empty option list yields the empty list. -/
theorem suggest_flattens_ac_options_witness :
    (suggest "iph" (.ok ⟨200, .ok (Json.obj [("suggest", Json.obj [("ac", Json.arr
      [Json.obj [("options", Json.arr [Json.obj [("text", Json.str "iphone 15")]])]])])])⟩)).fst
      = .ok ["iphone 15"] ∧
    (suggest "zz" (.ok ⟨200, .ok (Json.obj [("suggest", Json.obj [("ac", Json.arr
      [Json.obj [("options", Json.arr [])]])])])⟩)).fst = .ok [] :=
  ⟨(suggest_flattens_ac_options "iph" 200
      (Json.obj [("suggest", Json.obj [("ac", Json.arr
        [Json.obj [("options", Json.arr [Json.obj [("text", Json.str "iphone 15")]])]])])])
      ⟨[("ac", [⟨[⟨"iphone 15"⟩]⟩])]⟩ (by decide) rfl).1,
   (suggest_flattens_ac_options "zz" 200
      (Json.obj [("suggest", Json.obj [("ac", Json.arr
        [Json.obj [("options", Json.arr [])]])])])
      ⟨[("ac", [⟨[]⟩])]⟩ (by decide) rfl).2
     (by
       intro b hb
       simp [List.lookup] at hb
       subst hb
       rfl)⟩

/-- C7 counterexample: the body `\x7b"foo": 1\x7d` does not match the
nested suggest/ac/options/text form, yet `suggest` returns the empty
result, not an operational failure — Go decoding tolerates missing
fields. -/
theorem suggest_lenient_shape_counterexample :
    (suggest "ip" (.ok ⟨200, .ok (Json.obj [("foo", Json.num 1)])⟩)).fst = .ok [] :=
  rfl

/-- C7 (amended): for every engine response whose body fails to decode
into the expected structure (a JSON type mismatch somewhere in the
suggest/ac/options/text form), `suggest` reports an operational failure
rather than returning a result; bodies that merely omit those fields
decode to an empty result instead. -/
theorem suggest_decode_failure_error (q : String) (status : Nat) (j : Json)
    (msg : String) (hs : ¬ 299 < status)
    (h : decodeSuggestResponse j = .error msg) :
    (suggest q (.ok ⟨status, .ok j⟩)).fst = .error ("응답 파싱 실패: " ++ msg) := by
  simp [suggest, suggest.result, hs, h]

/-- Witness: a `suggest` field of the wrong JSON type is an operational
failure. -/
theorem suggest_decode_failure_error_witness :
    (suggest "ip" (.ok ⟨200, .ok (Json.obj [("suggest", Json.num 5)])⟩)).fst
      = .error ("응답 파싱 실패: " ++ "cannot unmarshal value into suggest map") :=
  suggest_decode_failure_error "ip" 200 (Json.obj [("suggest", Json.num 5)])
    "cannot unmarshal value into suggest map" (by decide) rfl

/-- C8: a `/suggest` request whose `q` parameter is empty after trimming
is rejected with status 400 and no search call is issued. -/
theorem handleSuggest_empty_q (qRaw : String) (outcome : Except String SearchResp)
    (h : goTrimSpace qRaw = "") :
    handleSuggest qRaw outcome = ⟨400, none, none⟩ := by
  simp [handleSuggest, h]

/-- Witness: a whitespace-only `q` yields 400 with no search call. -/
theorem handleSuggest_empty_q_witness :
    handleSuggest "   " (.ok ⟨200, .ok Json.null⟩) = ⟨400, none, none⟩ :=
  handleSuggest_empty_q "   " (.ok ⟨200, .ok Json.null⟩) (by decide)

/-- C10: a `/keywords` request with a method other than POST is rejected
with status 405, without attempting to decode the body and without any
engine call. -/
theorem handleKeywords_non_post (method : String)
    (d : Except String upsertRequest) (eo : Except String EsResponse)
    (h : method ≠ "POST") :
    handleKeywords method d eo = ⟨405, false, none⟩ := by
  simp [handleKeywords, h]

/-- Witness: a GET to `/keywords` is rejected with 405 and no decode or
engine call. -/
theorem handleKeywords_non_post_witness :
    handleKeywords "GET" (.ok ⟨"x", 1, none⟩) (.ok ⟨200⟩) = ⟨405, false, none⟩ :=
  handleKeywords_non_post "GET" (.ok ⟨"x", 1, none⟩) (.ok ⟨200⟩) (by decide)
